import Mathlib

/-!
Verification development for `scripts/extract_error_messages.py`.

The Python core walks a parsed JSON document iteratively (explicit stack),
dedups container visits by object identity (`id(node)` in a `seen` set),
threads an `(attempt, round)` context downward, extracts
`(errorType, message)` pairs preferring a nested `errorMsg` container over
same-node direct fields, groups entries in a `defaultdict(list)` sink, and
sorts group keys with `_sort_key`.

Embedding choices:
* JSON values are `JVal`; containers (dicts and lists) live in an explicit
  heap addressed by `Nat` identities, so aliasing (one container reachable
  through several parents) and cycles are representable, exactly what the
  identity-keyed `seen` set of the source is about.
* Python `isinstance(x, int)` is true for booleans (`bool` subclasses
  `int`, `True == 1`), so the integer tests of lines 69-71 accept booleans;
  the embedding maps `True`/`False` to `1`/`0` where the source would.
* Python `dict.get` returns `None` both for a missing key and for a stored
  JSON `null`; `getF` returns the stored value and every use site matches
  `JVal.null` explicitly the way the source's `is not None` checks behave.
* Non-integer JSON numbers are never read by the engine (they are not
  `int`, `str`, `dict` or `list`, and are not `None`), so they carry no
  payload here.
* The `while` loop becomes fuel-indexed iteration `run`; a sufficient fuel
  bound is proved (see `run_stack_empty`), and `collect_errors_iterative`
  runs the loop with that bound.
* Adding scalar identities to `seen` (the source adds `id(node)` for every
  popped value) is observationally irrelevant: scalars emit nothing and
  push nothing, and a scalar's identity can never equal a live container's
  identity in Python; the embedding tracks only container identities.
-/

namespace ExtractErrors

/-- A JSON value: scalars are inline, containers are heap references. -/
inductive JVal where
  | null  : JVal
  | bool  : Bool → JVal
  | int   : Int → JVal
  | float : JVal
  | str   : String → JVal
  | ref   : Nat → JVal
deriving DecidableEq, Repr

/-- A heap cell: a JSON object (ordered fields) or array. -/
inductive Container where
  | obj : List (String × JVal) → Container
  | arr : List JVal → Container
deriving DecidableEq, Repr

abbrev Fields := List (String × JVal)

/-- The store of container instances, keyed by identity. -/
abbrev Heap := List (Nat × Container)

/-- `(attempt, round)` context, `none` meaning Python `None`. -/
abbrev AttemptRound := Option Int × Option Int

/-- `(errorType, message)`. -/
abbrev ErrorEntry := String × String

/-- The grouped sink: association list in group-creation order, mirroring
`defaultdict(AttemptRound, list)` insertion order. -/
abbrev Sink := List (AttemptRound × List ErrorEntry)

/-- Field lookup in an object (`node.get(k)` / `node[k]`, first match). -/
def getF : Fields → String → Option JVal
  | [], _ => none
  | (k', v) :: rest, k => if k' = k then some v else getF rest k

/-- Container lookup by identity. -/
def lookupC : Heap → Nat → Option Container
  | [], _ => none
  | (i', c) :: rest, i => if i' = i then some c else lookupC rest i

/-- `_iter_strings`: the strings of `x` when it is a string or a list,
in order, skipping non-string list elements. -/
def iterStrings (h : Heap) (x : JVal) : List String :=
  match x with
  | .str s => [s]
  | .ref i =>
    match lookupC h i with
    | some (.arr items) =>
      items.filterMap fun it =>
        match it with
        | .str s => some s
        | _ => none
    | _ => []
  | _ => []

/-- The shared extraction step of rules 1 and 2 (source lines 78-83 and
87-91): when the fields carry an `errorType` string and an `errorMessage`
that is present and not `null`, return the emitted entries (`some`, the
branch taken / flag set), else `none`. -/
def extractPair (h : Heap) (fs : Fields) : Option (List ErrorEntry) :=
  match getF fs "errorType", getF fs "errorMessage" with
  | some (.str t), some m =>
    if m = .null then none
    else some ((iterStrings h m).map fun s => (t, s))
  | _, _ => none

/-- Rule 1 (source lines 75-83): the `errorMsg` child, when it is a dict,
run through `extractPair`; `some` exactly when
`extracted_from_errmsg_child` becomes `True`. -/
def rule1 (h : Heap) (fs : Fields) : Option (List ErrorEntry) :=
  match getF fs "errorMsg" with
  | some (.ref i) =>
    match lookupC h i with
    | some (.obj cfs) => extractPair h cfs
    | _ => none
  | _ => none

/-- Context update at a dict node (source lines 68-72).  Python
`isinstance(x, int)` also accepts booleans. -/
def updCtx (fs : Fields) (att rnd : Option Int) : AttemptRound :=
  let att' :=
    match getF fs "attempt" with
    | some (.int n) => some n
    | some (.bool b) => some (if b then (1 : Int) else 0)
    | _ => att
  let rnd' :=
    match getF fs "round" with
    | some (.int n) => some n
    | some (.bool b) => some (if b then (1 : Int) else 0)
    | some .null => none
    | _ => rnd
  (att', rnd')

/-- Processing of one dict node: effective context, emitted entries,
and the `extracted_from_errmsg_child` flag. -/
def nodeStep (h : Heap) (fs : Fields) (att rnd : Option Int) :
    AttemptRound × List ErrorEntry × Bool :=
  let ctx := updCtx fs att rnd
  match rule1 h fs with
  | some es => (ctx, es, true)
  | none =>
    match extractPair h fs with
    | some es => (ctx, es, false)
    | none => (ctx, [], false)

/-- Child values pushed for a dict node (source lines 94-97): every field
value in declaration order, except the `errorMsg` child when the flag is
set. -/
def pushedChildren (fs : Fields) (flag : Bool) : List JVal :=
  (fs.filter fun kv => !(flag && kv.1 == "errorMsg")).map Prod.snd

/-- `sink[(att, rnd)].append(e)` on a `defaultdict(list)`: append to the
existing group, else create the group at the end. -/
def sinkAppend (s : Sink) (k : AttemptRound) (e : ErrorEntry) : Sink :=
  match s with
  | [] => [(k, [e])]
  | (k', es) :: rest =>
    if k' = k then (k', es ++ [e]) :: rest else (k', es) :: sinkAppend rest k e

/-- Append a batch of entries under one context key. -/
def appendAll (s : Sink) (k : AttemptRound) (es : List ErrorEntry) : Sink :=
  es.foldl (fun acc e => sinkAppend acc k e) s

/-- The group stored for a context key, if any. -/
def groupOf : Sink → AttemptRound → Option (List ErrorEntry)
  | [], _ => none
  | (k', es) :: rest, k => if k' = k then some es else groupOf rest k

/-- The loop state of `collect_errors_iterative`: work stack of
`(node, attempt, round)`, identity `seen` set, and the sink. -/
structure LoopState where
  stack : List (JVal × Option Int × Option Int)
  seen : List Nat
  sink : Sink
deriving Repr

/-- One iteration of the `while stack:` loop (source lines 59-103): `none`
when the stack is empty and the loop exits, else the successor state.  A
popped identity already seen is dropped; a fresh dict node updates context,
extracts, and pushes its children (LIFO, so pushes are reversed onto the
front); a fresh list node pushes its items under the incoming context;
scalars are ignored. -/
def stepL (h : Heap) (st : LoopState) : Option LoopState :=
  match st.stack with
  | [] => none
  | (node, att, rnd) :: rest =>
    match node with
    | .ref i =>
      if i ∈ st.seen then some ⟨rest, st.seen, st.sink⟩
      else
        match lookupC h i with
        | some (.obj fs) =>
          let out := nodeStep h fs att rnd
          some ⟨((pushedChildren fs out.2.2).map fun v => (v, out.1.1, out.1.2)).reverse ++ rest,
                i :: st.seen, appendAll st.sink out.1 out.2.1⟩
        | some (.arr items) =>
          some ⟨(items.map fun v => (v, att, rnd)).reverse ++ rest, i :: st.seen, st.sink⟩
        | none => some ⟨rest, i :: st.seen, st.sink⟩
    | _ => some ⟨rest, st.seen, st.sink⟩

/-- The `while stack:` loop of `collect_errors_iterative`, fuel-indexed. -/
def run (h : Heap) : Nat → LoopState → LoopState
  | 0, st => st
  | fuel + 1, st =>
    match stepL h st with
    | none => st
    | some st' => run h fuel st'

/-- Number of children of a container. -/
def containerSize : Container → Nat
  | .obj fs => fs.length
  | .arr items => items.length

/-- Fuel still chargeable to heap cells whose identity is not yet seen:
one pop plus one push per child for each of them. -/
def unseenWeight (h : Heap) (seen : List Nat) : Nat :=
  match h with
  | [] => 0
  | (i, c) :: t => (if i ∈ seen then 0 else 1 + containerSize c) + unseenWeight t seen

/-- Termination measure of a loop state. -/
def measureOf (h : Heap) (st : LoopState) : Nat :=
  unseenWeight h st.seen + st.stack.length

/-- `collect_errors_iterative(root, sink)`: run the loop to completion
(the fuel bound is sufficient, see `run_stack_empty`) and return the sink. -/
def collect_errors_iterative (h : Heap) (root : JVal) (sink : Sink) : Sink :=
  (run h (unseenWeight h [] + 1) ⟨[(root, none, none)], [], sink⟩).sink

/-- `extract_grouped_errors`: the loader (file check, `open`, `json.load`,
source lines 113-120) is an external collaborator modelled by its outcome:
`none` when the file is missing, unreadable or not valid JSON — both source
failure paths `return grouped` with `grouped` still empty — and
`some (heap, root)` when parsing produced a document. -/
def extract_grouped_errors (loaded : Option (Heap × JVal)) : Sink :=
  match loaded with
  | none => []
  | some (h, root) => collect_errors_iterative h root []

/-- The body of `_sort_key` (source lines 126-133) applied to what its
docstring documents — an `(attempt, round)` pair: `a, r = k` binds the
two optional integers, and the key is `(none-flag, value-or-big)` twice
with `big = 10**9`. -/
def sortKey (k : AttemptRound) : Int × Int × Int × Int :=
  let big : Int := 10 ^ 9
  ((if k.1 = none then 1 else 0), k.1.getD big,
   (if k.2 = none then 1 else 0), k.2.getD big)

/-- Strict lexicographic order on 4-tuples of integers, as Python compares
the tuples `sortKey` returns. -/
def tupLT (p q : Int × Int × Int × Int) : Prop :=
  p.1 < q.1 ∨ (p.1 = q.1 ∧
    (p.2.1 < q.2.1 ∨ (p.2.1 = q.2.1 ∧
      (p.2.2.1 < q.2.2.1 ∨ (p.2.2.1 = q.2.2.1 ∧ p.2.2.2 < q.2.2.2)))))

/-- The body of `_sort_key` as `main` actually calls it (line 174):
`sorted(grouped.items(), key=_sort_key)` hands `_sort_key` the item
`((attempt, round), entries)`, so `a, r = k` binds `a` to the whole
context tuple and `r` to the entries list.  A tuple and a list are never
Python `None`, so both `is None` tests are false, the null-last and
`10**9` sentinel branches are dead, and the key is just
`(0, (attempt, round), 0, entries)`. -/
def sort_key_item (k : AttemptRound × List ErrorEntry) :
    Nat × AttemptRound × Nat × List ErrorEntry :=
  (0, k.1, 0, k.2)

/-- Python comparison of two optional integers inside a tuple being
sorted: two `None`s are equal, two integers compare as integers, and
`None` against an integer raises `TypeError`, modelled as `none`. -/
def pyCmpOptInt : Option Int → Option Int → Option Ordering
  | none, none => some .eq
  | some m, some n => some (compare m n)
  | _, _ => none

/-- Python comparison of two `(attempt, round)` tuples: elementwise until
a strict result, propagating `TypeError`. -/
def pyCmpCtx (x y : AttemptRound) : Option Ordering :=
  match pyCmpOptInt x.1 y.1 with
  | some .eq => pyCmpOptInt x.2 y.2
  | o => o

/-- Comparison of two `(errorType, message)` pairs as Python compares
tuples of strings (always defined). -/
def cmpEntry (p q : ErrorEntry) : Ordering :=
  match compare p.1 q.1 with
  | .eq => compare p.2 q.2
  | o => o

/-- Comparison of two entry lists as Python compares lists of string
tuples: lexicographic, always defined. -/
def cmpEntryList : List ErrorEntry → List ErrorEntry → Ordering
  | [], [] => .eq
  | [], _ :: _ => .lt
  | _ :: _, [] => .gt
  | p :: ps, q :: qs =>
    match cmpEntry p q with
    | .eq => cmpEntryList ps qs
    | o => o

/-- Python comparison of two keys returned by `sort_key_item`: the flag,
then the raw context tuple (where `TypeError` can arise), then the second
flag, then the entries lists. -/
def pyCmpKeys (p q : Nat × AttemptRound × Nat × List ErrorEntry) :
    Option Ordering :=
  match compare p.1 q.1 with
  | .eq =>
    match pyCmpCtx p.2.1 q.2.1 with
    | some .eq =>
      match compare p.2.2.1 q.2.2.1 with
      | .eq => some (cmpEntryList p.2.2.2 q.2.2.2)
      | o => some o
    | o => o
  | o => some o

/-- The comparison `sorted(grouped.items(), key=_sort_key)` performs
between two grouped items; `none` is a `TypeError` aborting the sort. -/
def pyCmpItemKeys (i1 i2 : AttemptRound × List ErrorEntry) : Option Ordering :=
  pyCmpKeys (sort_key_item i1) (sort_key_item i2)

/-! ### Termination of the traversal loop -/

lemma unseenWeight_mono (h : Heap) (seen : List Nat) (j : Nat) :
    unseenWeight h (j :: seen) ≤ unseenWeight h seen := by
  induction h with
  | nil => simp [unseenWeight]
  | cons e t ih =>
    obtain ⟨i', c'⟩ := e
    by_cases he : i' ∈ seen
    · have he' : i' ∈ j :: seen := List.mem_cons_of_mem _ he
      simp [unseenWeight, he, he']
      exact ih
    · by_cases hej : i' = j
      · have he' : i' ∈ j :: seen := by simp [hej]
        simp [unseenWeight, he, he']
        omega
      · have he' : i' ∉ j :: seen := by simp [List.mem_cons, hej, he]
        simp [unseenWeight, he, he']
        omega

lemma unseenWeight_insert (h : Heap) (seen : List Nat) (i : Nat) (c : Container)
    (hl : lookupC h i = some c) (hns : i ∉ seen) :
    unseenWeight h (i :: seen) + (1 + containerSize c) ≤ unseenWeight h seen := by
  induction h with
  | nil => simp [lookupC] at hl
  | cons e t ih =>
    obtain ⟨i', c'⟩ := e
    by_cases hei : i' = i
    · subst hei
      have hc : c' = c := by
        simp [lookupC] at hl
        exact hl
      subst hc
      have hmem : i' ∈ i' :: seen := List.mem_cons_self _ _
      simp [unseenWeight, hns, hmem]
      have := unseenWeight_mono t seen i'
      omega
    · have hl' : lookupC t i = some c := by
        simpa [lookupC, hei] using hl
      by_cases hs : i' ∈ seen
      · have hs' : i' ∈ i :: seen := List.mem_cons_of_mem _ hs
        simp [unseenWeight, hs, hs']
        exact ih hl'
      · have hs' : i' ∉ i :: seen := by simp [List.mem_cons, hei, hs]
        simp [unseenWeight, hs, hs']
        have := ih hl'
        omega

lemma pushedChildren_length_le (fs : Fields) (flag : Bool) :
    (pushedChildren fs flag).length ≤ fs.length := by
  simp only [pushedChildren, List.length_map]
  exact List.length_filter_le _ _

lemma stepL_none_iff (h : Heap) (st : LoopState) :
    stepL h st = none ↔ st.stack = [] := by
  obtain ⟨stack, seen, sink⟩ := st
  cases stack with
  | nil => simp [stepL]
  | cons hd rest =>
    obtain ⟨node, att, rnd⟩ := hd
    cases node <;> simp [stepL]
    case ref i =>
      by_cases hi : i ∈ seen
      · simp [hi]
      · cases hc : lookupC h i with
        | none => simp [hi, hc]
        | some c => cases c <;> simp [hi, hc]

lemma stepL_measure (h : Heap) (st st' : LoopState)
    (hs : stepL h st = some st') : measureOf h st' < measureOf h st := by
  obtain ⟨stack, seen, sink⟩ := st
  cases stack with
  | nil => simp [stepL] at hs
  | cons hd rest =>
    obtain ⟨node, att, rnd⟩ := hd
    cases node
    case ref i =>
      by_cases hi : i ∈ seen
      · simp [stepL, hi] at hs
        subst hs
        simp [measureOf]
      · cases hc : lookupC h i with
        | none =>
          simp [stepL, hi, hc] at hs
          subst hs
          have := unseenWeight_mono h seen i
          simp [measureOf]
          omega
        | some c =>
          cases c with
          | obj fs =>
            simp [stepL, hi, hc] at hs
            subst hs
            have hw := unseenWeight_insert h seen i (.obj fs) hc hi
            have hk := pushedChildren_length_le fs (nodeStep h fs att rnd).2.2
            simp [measureOf, containerSize] at hw ⊢
            omega
          | arr items =>
            simp [stepL, hi, hc] at hs
            subst hs
            have hw := unseenWeight_insert h seen i (.arr items) hc hi
            simp [measureOf, containerSize] at hw ⊢
            omega
    all_goals
      simp [stepL] at hs
      subst hs
      simp [measureOf]

lemma run_stack_empty (h : Heap) :
    ∀ (fuel : Nat) (st : LoopState), measureOf h st ≤ fuel →
      (run h fuel st).stack = [] := by
  intro fuel
  induction fuel with
  | zero =>
    intro st hm
    simp only [measureOf, Nat.le_zero, Nat.add_eq_zero] at hm
    have hlen : st.stack = [] := List.length_eq_zero.mp hm.2
    simpa [run] using hlen
  | succ fuel ih =>
    intro st hm
    cases hs : stepL h st with
    | none =>
      simp [run, hs]
      exact (stepL_none_iff h st).mp hs
    | some st' =>
      have hlt := stepL_measure h st st' hs
      simp [run, hs]
      exact ih st' (by omega)

lemma run_of_empty (h : Heap) (fuel : Nat) (st : LoopState)
    (he : st.stack = []) : run h fuel st = st := by
  cases fuel with
  | zero => rfl
  | succ fuel =>
    have : stepL h st = none := (stepL_none_iff h st).mpr he
    simp [run, this]

lemma run_add (h : Heap) :
    ∀ (fuel : Nat) (st : LoopState) (extra : Nat),
      (run h fuel st).stack = [] → run h (fuel + extra) st = run h fuel st := by
  intro fuel
  induction fuel with
  | zero =>
    intro st extra he
    simp [run] at he
    simpa [run, Nat.zero_add] using run_of_empty h extra st he
  | succ fuel ih =>
    intro st extra he
    cases hs : stepL h st with
    | none =>
      have hst : st.stack = [] := (stepL_none_iff h st).mp hs
      rw [run_of_empty h (fuel + 1 + extra) st hst, run_of_empty h (fuel + 1) st hst]
    | some st' =>
      have harith : fuel + 1 + extra = (fuel + extra) + 1 := by omega
      rw [harith]
      simp [run, hs] at he ⊢
      exact ih st' extra he

/-! ### The sink is append-only -/

lemma groupOf_sinkAppend (s : Sink) (k' : AttemptRound) (e : ErrorEntry)
    (k : AttemptRound) (es : List ErrorEntry) (hg : groupOf s k = some es) :
    ∃ t, groupOf (sinkAppend s k' e) k = some (es ++ t) := by
  induction s with
  | nil => simp [groupOf] at hg
  | cons hd rest ih =>
    obtain ⟨k0, es0⟩ := hd
    simp only [sinkAppend]
    by_cases h1 : k0 = k'
    · rw [if_pos h1]
      by_cases h2 : k0 = k
      · subst h2
        have hes : es0 = es := by simpa [groupOf] using hg
        subst hes
        exact ⟨[e], by simp [groupOf]⟩
      · have hg' : groupOf rest k = some es := by simpa [groupOf, h2] using hg
        exact ⟨[], by simp [groupOf, h2, hg']⟩
    · rw [if_neg h1]
      by_cases h2 : k0 = k
      · subst h2
        have hes : es0 = es := by simpa [groupOf] using hg
        subst hes
        exact ⟨[], by simp [groupOf]⟩
      · have hg' : groupOf rest k = some es := by simpa [groupOf, h2] using hg
        obtain ⟨t, ht⟩ := ih hg'
        exact ⟨t, by simp [groupOf, h2, ht]⟩

lemma groupOf_appendAll (l : List ErrorEntry) :
    ∀ (s : Sink) (k' k : AttemptRound) (es : List ErrorEntry),
      groupOf s k = some es →
      ∃ t, groupOf (appendAll s k' l) k = some (es ++ t) := by
  induction l with
  | nil =>
    intro s k' k es hg
    exact ⟨[], by simpa [appendAll] using hg⟩
  | cons e l ih =>
    intro s k' k es hg
    obtain ⟨t1, ht1⟩ := groupOf_sinkAppend s k' e k es hg
    obtain ⟨t2, ht2⟩ := ih (sinkAppend s k' e) k' k (es ++ t1) ht1
    refine ⟨t1 ++ t2, ?_⟩
    simpa [appendAll, List.append_assoc] using ht2

lemma stepL_sink (h : Heap) (st st' : LoopState) (hs : stepL h st = some st')
    (k : AttemptRound) (es : List ErrorEntry) (hg : groupOf st.sink k = some es) :
    ∃ t, groupOf st'.sink k = some (es ++ t) := by
  obtain ⟨stack, seen, sink⟩ := st
  cases stack with
  | nil => simp [stepL] at hs
  | cons hd rest =>
    obtain ⟨node, att, rnd⟩ := hd
    cases node
    case ref i =>
      by_cases hi : i ∈ seen
      · simp [stepL, hi] at hs
        subst hs
        exact ⟨[], by simpa using hg⟩
      · cases hc : lookupC h i with
        | none =>
          simp [stepL, hi, hc] at hs
          subst hs
          exact ⟨[], by simpa using hg⟩
        | some c =>
          cases c with
          | obj fs =>
            simp [stepL, hi, hc] at hs
            subst hs
            simpa using groupOf_appendAll _ sink _ k es hg
          | arr items =>
            simp [stepL, hi, hc] at hs
            subst hs
            exact ⟨[], by simpa using hg⟩
    all_goals
      simp [stepL] at hs
      subst hs
      exact ⟨[], by simpa using hg⟩

lemma run_sink (h : Heap) :
    ∀ (fuel : Nat) (st : LoopState) (k : AttemptRound) (es : List ErrorEntry),
      groupOf st.sink k = some es →
      ∃ t, groupOf (run h fuel st).sink k = some (es ++ t) := by
  intro fuel
  induction fuel with
  | zero =>
    intro st k es hg
    exact ⟨[], by simpa [run] using hg⟩
  | succ fuel ih =>
    intro st k es hg
    cases hs : stepL h st with
    | none => exact ⟨[], by simpa [run, hs] using hg⟩
    | some st' =>
      obtain ⟨t1, ht1⟩ := stepL_sink h st st' hs k es hg
      obtain ⟨t2, ht2⟩ := ih st' k (es ++ t1) ht1
      refine ⟨t1 ++ t2, ?_⟩
      simpa [run, hs, List.append_assoc] using ht2

/-! ### Claim-side predicates (phrasing of the specification's conditions) -/

/-- The field holds a JSON integer (the specification's reading). -/
def hasIntField (fs : Fields) (k : String) : Bool :=
  match getF fs k with
  | some (.int _) => true
  | _ => false

/-- The field holds an integer or a boolean (what Python's
`isinstance(_, int)` accepts). -/
def intOrBoolField (fs : Fields) (k : String) : Bool :=
  match getF fs k with
  | some (.int _) => true
  | some (.bool _) => true
  | _ => false

/-- The `round` field holds an integer, a boolean, or explicit null —
the shapes on which line 71 overrides the round context. -/
def roundOverrideField (fs : Fields) : Bool :=
  match getF fs "round" with
  | some (.int _) => true
  | some (.bool _) => true
  | some .null => true
  | _ => false

/-- The value is a string or an array all of whose elements are strings. -/
def strOrStrList (h : Heap) (m : JVal) : Bool :=
  match m with
  | .str _ => true
  | .ref j =>
    match lookupC h j with
    | some (.arr items) =>
      items.all fun it =>
        match it with
        | .str _ => true
        | _ => false
    | _ => false
  | _ => false

/-- The value is a string or an array (of anything). -/
def strOrArr (h : Heap) (m : JVal) : Bool :=
  match m with
  | .str _ => true
  | .ref j =>
    match lookupC h j with
    | some (.arr _) => true
    | _ => false
  | _ => false

/-- Attempt-or-round component order of the claim: integers ascending,
null after every integer. -/
def intThenNone : Option Int → Option Int → Prop
  | some m, some n => m < n
  | some _, none => True
  | none, _ => False

/-- The claim's group order: attempt first, ties broken by round. -/
def claimLT (x y : AttemptRound) : Prop :=
  intThenNone x.1 y.1 ∨ (x.1 = y.1 ∧ intThenNone x.2 y.2)

lemma iterStrings_eq_nil (h : Heap) (m : JVal) (hm : strOrArr h m = false) :
    iterStrings h m = [] := by
  cases m with
  | ref j =>
    cases hl : lookupC h j with
    | none => simp [iterStrings, hl]
    | some c =>
      cases c with
      | obj fs => simp [iterStrings, hl]
      | arr items => simp [strOrArr, hl] at hm
  | str s => simp [strOrArr] at hm
  | null => rfl
  | bool b => rfl
  | int n => rfl
  | float => rfl

lemma map_pair_filterMap (t : String) (items : List JVal) :
    ((items.filterMap fun it =>
        match it with
        | .str s => some s
        | _ => none).map fun s => (t, s))
      = items.filterMap fun it =>
          match it with
          | .str s => some (t, s)
          | _ => none := by
  induction items with
  | nil => rfl
  | cons it rest ih => cases it <;> simp [ih]

/-! ### The claims -/

/-- C1: the claim says each distinct object/array node instance is
processed for extraction at most once per traversal, and in particular
that a specialized `errorMsg` child consumed by rule 1 is never
re-extracted when reached through another parent or another key.  The code
violates this: rule 1 harvests the child without adding its identity to
`seen`, so the shared child instance (identity 2) is extracted once per
referencing parent.  This theorem evaluates the code at the failing
inputs: the single instance yields the entry `("T","m")` twice, both for
two parents sharing one `errorMsg` child and for one parent reaching the
same child under a second key. -/
theorem C1_shared_errmsg_child_extracted_twice :
    collect_errors_iterative
      [(0, .obj [("errorMsg", .ref 2)]),
       (1, .obj [("errorMsg", .ref 2)]),
       (2, .obj [("errorType", .str "T"), ("errorMessage", .str "m")]),
       (3, .arr [.ref 0, .ref 1])]
      (.ref 3) [] = [((none, none), [("T", "m"), ("T", "m")])] ∧
    collect_errors_iterative
      [(0, .obj [("errorMsg", .ref 2), ("other", .ref 2)]),
       (2, .obj [("errorType", .str "T"), ("errorMessage", .str "m")])]
      (.ref 0) [] = [((none, none), [("T", "m"), ("T", "m")])] := by
  constructor <;> decide

/-- C2 counterexample: the claim states the effective context overrides
`attempt` only if the node carries an `attempt` field holding an integer.
The node `{"attempt": true}` carries no integer `attempt` field, yet the
code overrides the inherited attempt (Python `isinstance(True, int)` holds
and `True == 1`), so the claim as stated is false. -/
theorem C2_bool_attempt_overrides :
    (updCtx [("attempt", .bool true)] none none).1 = some 1 ∧
    hasIntField [("attempt", .bool true)] "attempt" = false := by
  decide

/-- C2 (amended): the effective context overrides `attempt` only if the
node directly carries an `attempt` field holding an integer or a boolean
(booleans count as integers in the implementation, `true` as 1 and `false`
as 0), and overrides `round` only if it directly carries a `round` field
holding an integer, a boolean, or explicit null (a null round replaces an
inherited integer); integer fields yield exactly their value, absent
fields leave the context unchanged, and the effective context is what the
node's descendants receive while siblings on another path and ancestors
are unaffected.  The closed conjunct runs the chain
root → A(attempt=1) → B(round=2) → C(round=null) → D(no fields), with a
sibling S of B under A: D extracts under `(1, null)` and S under
`(1, null)` as well — untouched by B's `round=2` — and no other group
exists. -/
theorem C2_context_override :
    (∀ (fs : Fields) (att rnd : Option Int),
      (updCtx fs att rnd).1 ≠ att → intOrBoolField fs "attempt" = true) ∧
    (∀ (fs : Fields) (att rnd : Option Int),
      (updCtx fs att rnd).2 ≠ rnd → roundOverrideField fs = true) ∧
    (∀ (fs : Fields) (att rnd : Option Int) (n : Int),
      getF fs "attempt" = some (.int n) → (updCtx fs att rnd).1 = some n) ∧
    (∀ (fs : Fields) (att rnd : Option Int) (n : Int),
      getF fs "round" = some (.int n) → (updCtx fs att rnd).2 = some n) ∧
    (∀ (fs : Fields) (att rnd : Option Int),
      getF fs "round" = some .null → (updCtx fs att rnd).2 = none) ∧
    (∀ (fs : Fields) (att rnd : Option Int),
      getF fs "attempt" = none → getF fs "round" = none →
      updCtx fs att rnd = (att, rnd)) ∧
    collect_errors_iterative
      [(0, .obj [("a", .ref 1)]),
       (1, .obj [("attempt", .int 1), ("b", .ref 2), ("s", .ref 5)]),
       (2, .obj [("round", .int 2), ("c", .ref 3)]),
       (3, .obj [("round", .null), ("d", .ref 4)]),
       (4, .obj [("errorType", .str "DT"), ("errorMessage", .str "dm")]),
       (5, .obj [("errorType", .str "ST"), ("errorMessage", .str "sm")])]
      (.ref 0) []
      = [((some 1, none), [("ST", "sm"), ("DT", "dm")])] := by
  refine ⟨?_, ?_, ?_, ?_, ?_, ?_, by decide⟩
  · intro fs att rnd hne
    cases hg : getF fs "attempt" with
    | none => simp [updCtx, hg] at hne
    | some v => cases v <;> simp [updCtx, hg, intOrBoolField] at hne ⊢
  · intro fs att rnd hne
    cases hg : getF fs "round" with
    | none => simp [updCtx, hg] at hne
    | some v => cases v <;> simp [updCtx, hg, roundOverrideField] at hne ⊢
  · intro fs att rnd n hg
    simp [updCtx, hg]
  · intro fs att rnd n hg
    simp [updCtx, hg]
  · intro fs att rnd hg
    simp [updCtx, hg]
  · intro fs att rnd hga hgr
    simp [updCtx, hga, hgr]

/-- C2 witness: a node with `attempt = 5` overrides the inherited empty
attempt, and indeed carries an integer-or-boolean attempt field. -/
theorem C2_context_override_witness :
    intOrBoolField [("attempt", JVal.int 5)] "attempt" = true :=
  C2_context_override.1 [("attempt", JVal.int 5)] none none (by decide)

/-- C3: a node whose `errorMsg` child object carries an error-type string
and an error-message that is a string or an array of strings, and which
also carries its own direct `errorType`/`errorMessage` pair, emits exactly
the entries of the nested container — one per message string, all with the
container's type — and zero entries from its own direct fields; the flag
records that rule 1 fired, so rule 2 is not applied to the same node. -/
theorem C3_rule1_precedence :
    ∀ (h : Heap) (fs : Fields) (att rnd : Option Int) (i : Nat) (cfs : Fields)
      (t : String) (m : JVal) (t2 : String) (m2 : JVal),
      getF fs "errorMsg" = some (.ref i) →
      lookupC h i = some (.obj cfs) →
      getF cfs "errorType" = some (.str t) →
      getF cfs "errorMessage" = some m →
      strOrStrList h m = true →
      getF fs "errorType" = some (.str t2) →
      getF fs "errorMessage" = some m2 →
      m2 ≠ .null →
      (nodeStep h fs att rnd).2.1 = (iterStrings h m).map (fun s => (t, s)) ∧
      (nodeStep h fs att rnd).2.2 = true := by
  intro h fs att rnd i cfs t m t2 m2 h1 h2 h3 h4 h5 h6 h7 h8
  have hmnull : m ≠ .null := by
    intro hm
    subst hm
    simp [strOrStrList] at h5
  simp [nodeStep, rule1, h1, h2, extractPair, h3, h4, hmnull]

/-- C3 witness: a concrete node with both a well-formed `errorMsg` child
and its own direct pair emits only the child's entry. -/
theorem C3_rule1_precedence_witness :
    (nodeStep [(1, .obj [("errorType", .str "X"), ("errorMessage", .str "good")])]
      [("errorType", .str "D"), ("errorMessage", .str "d"), ("errorMsg", .ref 1)]
      none none).2.1 = [("X", "good")] ∧
    (nodeStep [(1, .obj [("errorType", .str "X"), ("errorMessage", .str "good")])]
      [("errorType", .str "D"), ("errorMessage", .str "d"), ("errorMsg", .ref 1)]
      none none).2.2 = true := by
  have := C3_rule1_precedence
    [(1, .obj [("errorType", .str "X"), ("errorMessage", .str "good")])]
    [("errorType", .str "D"), ("errorMessage", .str "d"), ("errorMsg", .ref 1)]
    none none 1 [("errorType", .str "X"), ("errorMessage", .str "good")]
    "X" (.str "good") "D" (.str "d")
    (by decide) (by decide) (by decide) (by decide) (by decide) (by decide)
    (by decide) (by decide)
  simpa [iterStrings] using this

/-- C4: for every finite document — the heap may contain shared references
forming diamonds or direct self-references forming cycles —
`collect_errors_iterative` terminates: the loop run with the computed fuel
bound reaches the empty stack, and any additional fuel leaves the final
state unchanged. -/
theorem C4_traversal_terminates :
    ∀ (h : Heap) (root : JVal) (sink : Sink),
      (run h (unseenWeight h [] + 1) ⟨[(root, none, none)], [], sink⟩).stack = [] ∧
      ∀ extra : Nat,
        run h (unseenWeight h [] + 1 + extra) ⟨[(root, none, none)], [], sink⟩
          = run h (unseenWeight h [] + 1) ⟨[(root, none, none)], [], sink⟩ := by
  intro h root sink
  have hm : measureOf h ⟨[(root, none, none)], [], sink⟩ ≤ unseenWeight h [] + 1 := by
    simp [measureOf]
  have h1 := run_stack_empty h (unseenWeight h [] + 1) _ hm
  exact ⟨h1, fun extra => run_add h _ _ extra h1⟩

/-- C5: the end-to-end document of the specification produces exactly the
two groups `(3,1) ↦ [("Compile","bad token")]` and
`(3,2) ↦ [("Runtime","npe")]`. -/
theorem C5_end_to_end :
    collect_errors_iterative
      [(0, .obj [("attempt", .int 3), ("round", .int 1),
                 ("errorMsg", .ref 1), ("nested", .ref 2)]),
       (1, .obj [("errorType", .str "Compile"), ("errorMessage", .ref 3)]),
       (2, .obj [("round", .int 2), ("errorType", .str "Runtime"),
                 ("errorMessage", .str "npe")]),
       (3, .arr [.str "bad token"])]
      (.ref 0) []
      = [((some 3, some 1), [("Compile", "bad token")]),
         ((some 3, some 2), [("Runtime", "npe")])] := by
  decide

/-- C6: with an error-type string present, a string message yields exactly
one entry, an array yields one entry per string element in array order
with non-string elements skipped, an absent message field yields zero
entries, and a present message field of any shape that is neither a
string nor an array — null, boolean, integer, float, or a nested object —
yields zero entries even though the error-type string is present; the
closed conjunct runs `errorMessage: ["a", 5, "b", "c"]` with
`errorType: "X"` through the full traversal, producing the three entries
in order under the one effective context. -/
theorem C6_message_shapes :
    (∀ (h : Heap) (fs : Fields) (t : String),
      getF fs "errorType" = some (.str t) →
      ((∀ s, getF fs "errorMessage" = some (.str s) →
          extractPair h fs = some [(t, s)]) ∧
       (∀ (i : Nat) (items : List JVal),
          getF fs "errorMessage" = some (.ref i) →
          lookupC h i = some (.arr items) →
          extractPair h fs
            = some (items.filterMap fun it =>
                match it with
                | .str s => some (t, s)
                | _ => none)) ∧
       (getF fs "errorMessage" = none → extractPair h fs = none) ∧
       (∀ m : JVal, getF fs "errorMessage" = some m → strOrArr h m = false →
          (extractPair h fs).getD [] = []))) ∧
    collect_errors_iterative
      [(0, .obj [("attempt", .int 7), ("errorType", .str "X"),
                 ("errorMessage", .ref 1)]),
       (1, .arr [.str "a", .int 5, .str "b", .str "c"])]
      (.ref 0) []
      = [((some 7, none), [("X", "a"), ("X", "b"), ("X", "c")])] := by
  constructor
  · intro h fs t ht
    refine ⟨?_, ?_, ?_, ?_⟩
    · intro s hm
      simp [extractPair, ht, hm, iterStrings]
    · intro i items hm hl
      simp [extractPair, ht, hm, iterStrings, hl, map_pair_filterMap]
    · intro hm
      simp [extractPair, ht, hm]
    · intro m hm hshape
      by_cases hn : m = .null
      · subst hn
        simp [extractPair, ht, hm]
      · simp [extractPair, ht, hm, hn, iterStrings_eq_nil h m hshape]
  · decide

/-- C6 witness: a direct string message with a present type yields exactly
one entry. -/
theorem C6_message_shapes_witness :
    extractPair [] [("errorType", .str "X"), ("errorMessage", .str "hello")]
      = some [("X", "hello")] := by
  have := (C6_message_shapes.1 []
    [("errorType", .str "X"), ("errorMessage", .str "hello")] "X" (by decide)).1
    "hello" (by decide)
  simpa using this

/-- C7 counterexample: the claim says a malformed `errorMessage` inside
the `errorMsg` child leaves the child unconsumed, so rule 2 still
extracts the node's own pair and the child is still pushed.  On the
document whose `errorMsg` child has `errorType: "X"`,
`errorMessage: 42` and a grandchild carrying a well-formed pair, and whose
top node carries the direct pair `("D","direct")`, the code emits nothing
at all — the child is consumed (flag set on any present non-null message),
rule 2 is skipped, and the grandchild is never visited — although rule 2
alone would have emitted `("D","direct")` (second conjunct). -/
theorem C7_malformed_still_consumes :
    collect_errors_iterative
      [(0, .obj [("errorType", .str "D"), ("errorMessage", .str "direct"),
                 ("errorMsg", .ref 1)]),
       (1, .obj [("errorType", .str "X"), ("errorMessage", .int 42),
                 ("deep", .ref 2)]),
       (2, .obj [("errorType", .str "G"), ("errorMessage", .str "g")])]
      (.ref 0) [] = [] ∧
    extractPair
      [(0, .obj [("errorType", .str "D"), ("errorMessage", .str "direct"),
                 ("errorMsg", .ref 1)]),
       (1, .obj [("errorType", .str "X"), ("errorMessage", .int 42),
                 ("deep", .ref 2)]),
       (2, .obj [("errorType", .str "G"), ("errorMessage", .str "g")])]
      [("errorType", .str "D"), ("errorMessage", .str "direct"),
       ("errorMsg", .ref 1)]
      = some [("D", "direct")] := by
  constructor <;> decide

/-- C7 (amended): when the `errorMsg` child has an error-type string and
an error-message field that is present and non-null but neither a string
nor an array, the field is skipped with no entry emitted and no failure,
but the child IS marked consumed — the flag is set whenever the child's
error-type is a string and its error-message is present and non-null,
whatever its shape — so rule 2 is skipped and the `errorMsg` child is not
pushed for independent traversal.  Only when the child's error-message is
absent or null is the child left unconsumed: then rule 2 governs the
node's own fields and every child, the `errorMsg` one included, is
pushed. -/
theorem C7_malformed_consumption :
    (∀ (h : Heap) (fs : Fields) (att rnd : Option Int) (i : Nat) (cfs : Fields)
        (t : String) (m : JVal),
      getF fs "errorMsg" = some (.ref i) →
      lookupC h i = some (.obj cfs) →
      getF cfs "errorType" = some (.str t) →
      getF cfs "errorMessage" = some m →
      m ≠ .null →
      strOrArr h m = false →
      (nodeStep h fs att rnd).2.1 = [] ∧ (nodeStep h fs att rnd).2.2 = true) ∧
    (∀ (h : Heap) (fs : Fields) (att rnd : Option Int) (i : Nat) (cfs : Fields),
      getF fs "errorMsg" = some (.ref i) →
      lookupC h i = some (.obj cfs) →
      (getF cfs "errorMessage" = none ∨ getF cfs "errorMessage" = some .null) →
      (nodeStep h fs att rnd).2.2 = false ∧
      (nodeStep h fs att rnd).2.1 = (extractPair h fs).getD []) ∧
    (∀ fs : Fields,
      pushedChildren fs true
        = (fs.filter fun kv => !(kv.1 == "errorMsg")).map Prod.snd) ∧
    (∀ fs : Fields, pushedChildren fs false = fs.map Prod.snd) := by
  refine ⟨?_, ?_, ?_, ?_⟩
  · intro h fs att rnd i cfs t m h1 h2 h3 h4 h5 h6
    simp [nodeStep, rule1, h1, h2, extractPair, h3, h4, h5,
      iterStrings_eq_nil h m h6]
  · intro h fs att rnd i cfs h1 h2 hm
    have hext : extractPair h cfs = none := by
      rcases hm with hm | hm <;>
      · cases h3 : getF cfs "errorType" with
        | none => simp [extractPair, h3]
        | some v => cases v <;> simp [extractPair, h3, hm]
    cases hep : extractPair h fs with
    | none => simp [nodeStep, rule1, h1, h2, hext, hep]
    | some es => simp [nodeStep, rule1, h1, h2, hext, hep]
  · intro fs
    simp [pushedChildren]
  · intro fs
    simp [pushedChildren]

/-- C7 witness: the counterexample node has empty emission and a set
consumption flag, via the amended per-node statement. -/
theorem C7_malformed_consumption_witness :
    (nodeStep [(1, .obj [("errorType", .str "X"), ("errorMessage", .int 42)])]
      [("errorType", .str "D"), ("errorMessage", .str "direct"),
       ("errorMsg", .ref 1)] none none).2.1 = [] ∧
    (nodeStep [(1, .obj [("errorType", .str "X"), ("errorMessage", .int 42)])]
      [("errorType", .str "D"), ("errorMessage", .str "direct"),
       ("errorMsg", .ref 1)] none none).2.2 = true :=
  C7_malformed_consumption.1
    [(1, .obj [("errorType", .str "X"), ("errorMessage", .int 42)])]
    [("errorType", .str "D"), ("errorMessage", .str "direct"),
     ("errorMsg", .ref 1)]
    none none 1 [("errorType", .str "X"), ("errorMessage", .int 42)]
    "X" (.int 42)
    (by decide) (by decide) (by decide) (by decide) (by decide) (by decide)

/-- C8: the claim states the documented behaviour of `_sort_key` — its
docstring reads "Sort (attempt, round) with None values last" and the
first conjunct proves its body, applied to an `(attempt, round)` pair,
realizes exactly the claimed order for all integers (the 0/1 null flag
decides before the `10^9` sentinel is ever compared).  But `main`
(line 174) calls `sorted(grouped.items(), key=_sort_key)`, handing the
key function the whole `((attempt, round), entries)` item: `a, r = k`
binds `a` to the context tuple and `r` to the entries list, neither is
ever `None`, so the null-last logic never engages and Python compares the
raw context tuples.  On the claim's own example contexts
`[(2,1), (1,null), (null,5), (1,1)]` every comparison that must place
`(null,5)`, and the `(1,null)` versus `(1,1)` comparison, is a
`TypeError` (modelled as `none`), so the program crashes instead of
producing the claimed order; where the comparison is defined it follows
the raw tuple (final conjunct), not the repaired key. -/
theorem C8_sort_key_misapplied_to_items :
    (∀ x y : AttemptRound, tupLT (sortKey x) (sortKey y) ↔ claimLT x y) ∧
    pyCmpItemKeys ((some 1, none), [("T", "m")])
      ((some 1, some 1), [("U", "n")]) = none ∧
    pyCmpItemKeys ((none, some 5), [("T", "m")])
      ((some 1, some 1), [("U", "n")]) = none ∧
    pyCmpItemKeys ((none, some 5), [("T", "m")])
      ((some 1, none), [("U", "n")]) = none ∧
    pyCmpItemKeys ((none, some 5), [("T", "m")])
      ((some 2, some 1), [("U", "n")]) = none ∧
    pyCmpItemKeys ((some 1, some 1), [("T", "m")])
      ((some 2, some 1), [("U", "n")]) = some .lt := by
  refine ⟨?_, by decide, by decide, by decide, by decide, by decide⟩
  intro x y
  obtain ⟨a1, r1⟩ := x
  obtain ⟨a2, r2⟩ := y
  cases a1 <;> cases a2 <;> cases r1 <;> cases r2 <;>
    simp [sortKey, tupLT, claimLT, intThenNone]

/-- C9: the loader (file existence check, `open`, `json.load`) is the
external collaborator; on a missing, unreadable or unparsable
`records.json` it yields no document, and `extract_grouped_errors` then
returns the still-empty grouped sink without raising; on success it runs
the traversal starting from an empty sink. -/
theorem C9_loader_failure_empty :
    extract_grouped_errors none = [] ∧
    ∀ (h : Heap) (root : JVal),
      extract_grouped_errors (some (h, root)) = collect_errors_iterative h root [] :=
  ⟨rfl, fun _ _ => rfl⟩

/-- C10: `collect_errors_iterative` is append-only on its sink: every
group present before the call is still present afterwards and its prior
entry sequence is an unmodified front segment of the group's sequence
after the call. -/
theorem C10_sink_append_only :
    ∀ (h : Heap) (root : JVal) (sink : Sink) (k : AttemptRound)
      (es : List ErrorEntry),
      groupOf sink k = some es →
      (groupOf (collect_errors_iterative h root sink) k).isSome = true ∧
      ((groupOf (collect_errors_iterative h root sink) k).getD []).take es.length
        = es := by
  intro h root sink k es hg
  obtain ⟨t, ht⟩ :=
    run_sink h (unseenWeight h [] + 1) ⟨[(root, none, none)], [], sink⟩ k es hg
  constructor
  · simp [collect_errors_iterative, ht]
  · simp [collect_errors_iterative, ht]

/-- C10 witness: a pre-populated group survives a traversal of a scalar
document unchanged. -/
theorem C10_sink_append_only_witness :
    (groupOf (collect_errors_iterative [] .null [((none, none), [("T", "m")])])
      (none, none)).isSome = true ∧
    ((groupOf (collect_errors_iterative [] .null [((none, none), [("T", "m")])])
      (none, none)).getD []).take 1 = [("T", "m")] := by
  have := C10_sink_append_only [] .null [((none, none), [("T", "m")])]
    (none, none) [("T", "m")] (by decide)
  simpa using this

end ExtractErrors
